import Mathlib

/-!
Verification development for the `pt-sdae` MNIST example
(`examples/mnist/mnist.py`).

The file shallowly embeds the two pieces of logic owned by that script:

* `CachedMNIST`, a memoizing dataset wrapper (`__getitem__`, `__len__`,
  `_transformation`), modelled with explicit state passing: the Python
  `dict` cache becomes an association list, `IndexError` becomes `none`,
  and torch tensors become lists of exact rationals tagged with a device
  (float arithmetic is modelled exactly: the literal `0.02` becomes the
  rational `2/100`).

* the orchestrator `main`, modelled as a function from the CLI
  configuration and an oracle for the external library calls (which may
  raise) to the trace of external effects it performs, in order.
-/

/-- Device a torch tensor lives on (`cpu`, or `cuda` accelerator). -/
inductive Device where
  | cpu
  | gpu
deriving DecidableEq, Repr

/-- A torch tensor, modelled as its numeric contents (exact rationals in
place of floats) together with the device it is placed on. -/
structure Tensor where
  values : List ℚ
  device : Device
deriving DecidableEq, Repr

/-- Moving a tensor to the accelerator: `t.cuda(non_blocking=True)`. -/
def Tensor.cuda (t : Tensor) : Tensor :=
  { t with device := Device.gpu }

/-- The Python value `torch.tensor(n)` for an integer label `n`:
a scalar tensor on the CPU. -/
def tensorOf (n : ℕ) : Tensor :=
  { values := [(n : ℚ)], device := Device.cpu }

/-- A Python value stored in a cache-entry list: either a tensor or a raw
integer label. -/
inductive Value where
  | tensor (t : Tensor)
  | int (n : ℕ)
deriving DecidableEq, Repr

/-- A cache entry is the Python list built by `list(self.ds[index])`
(possibly mutated afterwards): a list of values. -/
abbrev CacheEntry := List Value

/-- `CachedMNIST._transformation`: reinterpret the raw image bytes as a
byte tensor, convert to float and scale by `0.02`
(`torch.ByteTensor(torch.ByteStorage.from_buffer(img.tobytes())).float() * 0.02`).
The result is a CPU tensor. -/
def CachedMNIST._transformation (img : List ℕ) : Tensor :=
  { values := img.map (fun b : ℕ => (b : ℚ) * (2 / 100)), device := Device.cpu }

/-- The underlying `torchvision` MNIST dataset: a list of raw samples,
each a pair of the image's pixel bytes and its integer label. -/
abbrev MNISTData := List (List ℕ × ℕ)

/-- `self.ds[index]` for the wrapped MNIST dataset: fetch the raw sample
at `index` and apply the composed transform (`_transformation`) to the
image, returning the `(tensor, label)` pair; `none` models the
`IndexError` raised on an out-of-range index. -/
def MNIST.getitem (ds : MNISTData) (index : ℕ) : Option (Tensor × ℕ) :=
  (ds.get? index).map (fun raw => (CachedMNIST._transformation raw.1, raw.2))

/-- The state of a `CachedMNIST` object: the underlying dataset, the two
construction-time flags, and the memoization dict (an association list
from index to cached entry, queried with `List.lookup`). -/
structure CachedMNIST where
  ds : MNISTData
  cuda : Bool
  testing_mode : Bool
  cache : List (ℕ × CacheEntry)
deriving DecidableEq, Repr

/-- A freshly constructed `CachedMNIST` (its `_cache` is the empty dict). -/
def CachedMNIST.mk0 (ds : MNISTData) (cuda testing_mode : Bool) : CachedMNIST :=
  { ds := ds, cuda := cuda, testing_mode := testing_mode, cache := [] }

/-- The entry stored in the cache on a miss: `list(self.ds[index])`, and,
when `cuda` is set, slot 0 replaced by the feature tensor moved to the
accelerator and slot 1 replaced by `torch.tensor(label).cuda(...)`. -/
def CachedMNIST.fillEntry (cuda : Bool) (p : Tensor × ℕ) : CacheEntry :=
  let e0 : CacheEntry := [Value.tensor p.1, Value.int p.2]
  if cuda then
    (e0.set 0 (Value.tensor p.1.cuda)).set 1 (Value.tensor (tensorOf p.2).cuda)
  else
    e0

/-- `CachedMNIST.__getitem__(index)`: return the cached entry if present;
otherwise read the underlying dataset (propagating its `IndexError` as
`none`), build the entry, store it, and return it together with the
updated object state. -/
def CachedMNIST.getitem (m : CachedMNIST) (index : ℕ) :
    Option (CacheEntry × CachedMNIST) :=
  match m.cache.lookup index with
  | some e => some (e, m)
  | none =>
    match MNIST.getitem m.ds index with
    | none => none
    | some p =>
      let e := CachedMNIST.fillEntry m.cuda p
      some (e, { m with cache := (index, e) :: m.cache })

/-- `CachedMNIST.__len__`: `128 if self.testing_mode else len(self.ds)`. -/
def CachedMNIST.len (m : CachedMNIST) : ℕ :=
  if m.testing_mode then 128 else m.ds.length

/-- Well-formedness of a `CachedMNIST` state: every cached entry is the
fill of the corresponding underlying sample. Holds for a freshly
constructed object (empty cache) and is preserved by `getitem`. -/
def CachedMNIST.WF (m : CachedMNIST) : Prop :=
  ∀ i e, m.cache.lookup i = some e →
    ∃ p, MNIST.getitem m.ds i = some p ∧ e = CachedMNIST.fillEntry m.cuda p

/-! ## The orchestrator `main` -/

/-- The CLI configuration record built by the `click` options of `main`. -/
structure Config where
  cuda : Bool
  batch_size : ℕ
  pretrain_epochs : ℕ
  finetune_epochs : ℕ
  testing_mode : Bool
deriving DecidableEq, Repr

/-- The default values of the CLI options. -/
def Config.default : Config :=
  { cuda := false, batch_size := 256, pretrain_epochs := 300,
    finetune_epochs := 500, testing_mode := false }

/-- Which of the two datasets an external call is given. -/
inductive DSKind where
  | train
  | val
deriving DecidableEq, Repr

/-- An externally observable effect performed by `main`, with the
arguments the source passes at that call site. -/
inductive Event where
  | pretrain (ds : DSKind) (epochs batchSize : ℕ) (cuda : Bool) (corruption : ℚ)
  | finetune (ds : DSKind) (epochs batchSize : ℕ) (cuda : Bool) (corruption : ℚ)
  | dataLoader (ds : DSKind) (batchSize : ℕ) (shuffle : Bool)
  | kmeansFit (nClusters nInit : ℕ)
  | savePng (id : String)
  | logEmbedding
deriving DecidableEq, Repr

/-- Oracle for the behaviour of the external library calls in `main`:
for each fallible call, `none` means it returns normally and `some err`
means it raises exception `err`; `pngId` is the random hex identifier
`uuid.uuid4().hex` used to name the confusion-matrix file. -/
structure World where
  pretrainErr : Option String
  trainErr : Option String
  encodeErr : Option String
  kmeansErr : Option String
  pngId : String
deriving DecidableEq, Repr

/-- A `World` in which every external call returns normally. -/
def World.ok (pngId : String) : World :=
  { pretrainErr := none, trainErr := none, encodeErr := none,
    kmeansErr := none, pngId := pngId }

/-- The pretraining call of `main`: `ae.pretrain(ds_train, ...,
epochs=pretrain_epochs, batch_size=batch_size, ..., corruption=0.2)`. -/
def preEvent (cfg : Config) : Event :=
  Event.pretrain DSKind.train cfg.pretrain_epochs cfg.batch_size cfg.cuda (2 / 10)

/-- The finetuning call of `main`: `ae.train(ds_train, ...,
epochs=finetune_epochs, batch_size=batch_size, ..., corruption=0.2,
update_callback=training_callback)`. -/
def finEvent (cfg : Config) : Event :=
  Event.finetune DSKind.train cfg.finetune_epochs cfg.batch_size cfg.cuda (2 / 10)

/-- The body of `main` after the two datasets and the autoencoder are
built: perform the three stages in order, stopping at the first external
call that raises. The result is the list of effects performed before
termination, paired with the uncaught exception, if any.

Stage 1 (`ae.pretrain`): pretraining over the training set with the
configured epoch count and batch size and `corruption=0.2`.
Stage 2 (`ae.train`): finetuning with the same arguments.
Stage 3: build a `DataLoader` over the training set with
`batch_size=1024, shuffle=False`, run the encoder over its batches
(`encodeErr` models a failure inside that loop), run
`KMeans(n_clusters=10, n_init=20).fit_predict` on the collected
features, and then, unless `testing_mode` is set, save the confusion
heatmap PNG named by `pngId` and log the embedding. -/
def mainRun (cfg : Config) (w : World) : List Event × Option String :=
  let pre := preEvent cfg
  match w.pretrainErr with
  | some err => ([pre], some err)
  | none =>
    let fin := finEvent cfg
    match w.trainErr with
    | some err => ([pre, fin], some err)
    | none =>
      let dl := Event.dataLoader DSKind.train 1024 false
      match w.encodeErr with
      | some err => ([pre, fin, dl], some err)
      | none =>
        match w.kmeansErr with
        | some err => ([pre, fin, dl], some err)
        | none =>
          let km := Event.kmeansFit 10 20
          if cfg.testing_mode then
            ([pre, fin, dl, km], none)
          else
            ([pre, fin, dl, km, Event.savePng w.pngId, Event.logEmbedding], none)

/-- Does an event write the confusion-matrix PNG? -/
def Event.isSavePng : Event → Bool
  | Event.savePng _ => true
  | _ => false

/-- Does an event log an embedding visualization? -/
def Event.isLogEmbedding : Event → Bool
  | Event.logEmbedding => true
  | _ => false

/-- Erase the `batchSize` argument of the pretraining and finetuning
events (used to state that the batch-size option influences nothing
else). -/
def Event.batchErased : Event → Event
  | Event.pretrain ds e _ c q => Event.pretrain ds e 0 c q
  | Event.finetune ds e _ c q => Event.finetune ds e 0 c q
  | ev => ev

/-- The batching performed by `DataLoader(..., shuffle=False)` with
`drop_last` left at its default `False`: split the dataset, in order,
into consecutive chunks of `n` samples, the last chunk possibly
shorter. -/
def loaderBatches (n : ℕ) (l : List α) : List (List α) :=
  match n, l with
  | _, [] => []
  | 0, _ => []
  | n + 1, a :: as => (a :: as).take (n + 1) :: loaderBatches (n + 1) (as.drop n)
termination_by l.length
decreasing_by
  simp only [List.length_drop, List.length_cons]
  omega

/-! ## Helper lemmas -/

/-- An empty dataset yields no batches. -/
theorem loaderBatches_nil (n : ℕ) : loaderBatches n ([] : List α) = [] := by
  cases n <;> simp [loaderBatches]

/-- Batching never loses or reorders data: the concatenation of the
batches is the dataset in its original order (the loader is built with
`shuffle=False`). -/
theorem loaderBatches_flatten (n : ℕ) (hn : n ≠ 0) (l : List α) :
    (loaderBatches n l).flatten = l := by
  induction n, l using loaderBatches.induct with
  | case1 n => simp [loaderBatches_nil]
  | case2 l h => exact absurd rfl hn
  | case3 n a as ih =>
    have hd : List.drop n as = List.drop (n + 1) (a :: as) := rfl
    rw [loaderBatches, List.flatten_cons, ih hn, hd, List.take_append_drop]

/-- Batches are empty only for an empty dataset (when the batch size is
positive). -/
theorem loaderBatches_eq_nil (n : ℕ) (hn : n ≠ 0) (l : List α)
    (h : loaderBatches n l = []) : l = [] := by
  cases l with
  | nil => rfl
  | cons a as =>
    cases n with
    | zero => exact absurd rfl hn
    | succ n => rw [loaderBatches] at h; exact absurd h (by simp)

/-- Every batch except the last has exactly the configured size
(`drop_last=False` only shortens the final batch). -/
theorem loaderBatches_dropLast_length (n : ℕ) (l : List α) :
    ∀ b ∈ (loaderBatches n l).dropLast, b.length = n := by
  induction n, l using loaderBatches.induct with
  | case1 n => simp [loaderBatches_nil]
  | case2 l h =>
    intro b hb
    rw [loaderBatches] at hb
    · simp at hb
    · exact h
  | case3 n a as ih =>
    intro b hb
    rw [loaderBatches] at hb
    cases hr : loaderBatches (n + 1) (List.drop n as) with
    | nil => rw [hr] at hb; simp at hb
    | cons c cs =>
      rw [hr, List.dropLast_cons₂] at hb
      rcases List.mem_cons.mp hb with hb | hb
      · subst hb
        have hne : List.drop n as ≠ [] := by
          intro hnil
          rw [hnil, loaderBatches_nil] at hr
          exact absurd hr (by simp)
        have hlen : n < as.length := by
          by_contra hle
          exact hne (List.drop_eq_nil_iff.mpr (by omega))
        simp [List.length_take]
        omega
      · exact ih b (by rw [hr]; exact hb)

/-! ## Concrete states used by the witnesses -/

/-- A small concrete underlying dataset. -/
def dsDemo : MNISTData := [([0, 1, 2], 5), ([3, 4, 250], 7)]

/-- A freshly constructed wrapper over `dsDemo` (CPU, not testing). -/
def mDemo : CachedMNIST := CachedMNIST.mk0 dsDemo false false

/-- The entry `__getitem__(0)` computes and caches on `mDemo`. -/
def eDemo : CacheEntry :=
  [Value.tensor { values := [0, 1 / 50, 1 / 25], device := Device.cpu }, Value.int 5]

/-- The state of `mDemo` after the first read at index 0. -/
def mDemo' : CachedMNIST := { mDemo with cache := [(0, eDemo)] }

/-! ## Claims -/

/-- C1: the first successful call to `__getitem__(i)` stores the computed
entry in the cache, and every later call at the same index returns
exactly the stored entry with the object state unchanged (no
recomputation); moreover no call recomputes, invalidates, or evicts an
existing cache entry. -/
theorem CachedMNIST.getitem_memoizes (m : CachedMNIST) (i : ℕ) :
    (∀ e, m.cache.lookup i = some e → m.getitem i = some (e, m)) ∧
    (∀ e m', m.getitem i = some (e, m') →
      m'.cache.lookup i = some e ∧
      m'.getitem i = some (e, m') ∧
      (∀ j e', m.cache.lookup j = some e' → m'.cache.lookup j = some e')) := by
  constructor
  · intro e he
    simp [CachedMNIST.getitem, he]
  · intro e m' h
    unfold CachedMNIST.getitem at h
    cases hc : m.cache.lookup i with
    | some e0 =>
      rw [hc] at h
      simp only [Option.some.injEq, Prod.mk.injEq] at h
      obtain ⟨he, hm⟩ := h
      subst he; subst hm
      exact ⟨hc, by simp [CachedMNIST.getitem, hc], fun j e' hj => hj⟩
    | none =>
      rw [hc] at h
      cases hg : MNIST.getitem m.ds i with
      | none => rw [hg] at h; simp at h
      | some p =>
        rw [hg] at h
        simp only [Option.some.injEq, Prod.mk.injEq] at h
        obtain ⟨he, hm⟩ := h
        subst he; subst hm
        refine ⟨?_, ?_, ?_⟩
        · simp [List.lookup]
        · simp [CachedMNIST.getitem, List.lookup]
        · intro j e' hj
          rcases Decidable.em (j = i) with hji | hji
          · subst hji; rw [hc] at hj; exact absurd hj (by simp)
          · have hb : (j == i) = false := beq_eq_false_iff_ne.mpr hji
            simpa [List.lookup, hb] using hj

/-- C1 witness: on the concrete state `mDemo`, the first read at index 0
returns `eDemo` and moves to state `mDemo'`, where the entry is cached
and a second read returns the identical entry with no state change. -/
theorem CachedMNIST.getitem_memoizes_witness :
    mDemo.getitem 0 = some (eDemo, mDemo') ∧
    mDemo'.cache.lookup 0 = some eDemo ∧
    mDemo'.getitem 0 = some (eDemo, mDemo') :=
  have h : mDemo.getitem 0 = some (eDemo, mDemo') := by
    simp only [mDemo, mDemo', dsDemo, eDemo, CachedMNIST.mk0, CachedMNIST.getitem,
      MNIST.getitem, CachedMNIST.fillEntry, CachedMNIST._transformation, List.lookup,
      List.get?, List.map, Option.map, if_false, Bool.false_eq_true]
    norm_num
  ⟨h, ((CachedMNIST.getitem_memoizes mDemo 0).2 eDemo mDemo' h).1,
    ((CachedMNIST.getitem_memoizes mDemo 0).2 eDemo mDemo' h).2.1⟩

/-- C2: `__len__` returns 128 when the testing-mode flag is set and the
underlying dataset's length otherwise. -/
theorem CachedMNIST.len_spec (m : CachedMNIST) :
    (m.testing_mode = true → m.len = 128) ∧
    (m.testing_mode = false → m.len = m.ds.length) := by
  constructor <;> intro h <;> simp [CachedMNIST.len, h]

/-- C2 witness: a testing-mode wrapper over an empty dataset reports
length 128; `mDemo` (testing mode off) reports its dataset's length. -/
theorem CachedMNIST.len_spec_witness :
    ((CachedMNIST.mk0 [] false true).testing_mode = true ∧
      (CachedMNIST.mk0 [] false true).len = 128) ∧
    (mDemo.testing_mode = false ∧ mDemo.len = mDemo.ds.length) :=
  ⟨⟨rfl, (CachedMNIST.len_spec (CachedMNIST.mk0 [] false true)).1 rfl⟩,
    ⟨rfl, (CachedMNIST.len_spec mDemo).2 rfl⟩⟩

/-- A testing-mode wrapper whose underlying dataset has 130 samples:
its reported length is 128, but indices up to 129 are still readable. -/
def mBig : CachedMNIST := CachedMNIST.mk0 (List.replicate 130 ([0], 3)) false true

/-- C3 counterexample: in testing mode the reported length is 128, yet
`__getitem__(128)` succeeds rather than failing — the accessor checks
the index only against the underlying dataset, never against the
reported length. -/
theorem CachedMNIST.getitem_oob_no_error :
    mBig.testing_mode = true ∧ mBig.len = 128 ∧ (mBig.getitem 128).isSome = true := by
  refine ⟨rfl, by decide, by decide⟩

/-- C3 amended: `__getitem__(i)` fails (with the underlying dataset's
IndexError) exactly when the index is uncached and at or beyond the
underlying dataset's length; the reported testing-mode length of 128 is
not enforced, so in testing mode indices in `[128, len(ds))` succeed. -/
theorem CachedMNIST.getitem_error_iff (m : CachedMNIST) (i : ℕ) :
    m.getitem i = none ↔ (m.cache.lookup i = none ∧ m.ds.length ≤ i) := by
  unfold CachedMNIST.getitem
  cases hc : m.cache.lookup i with
  | some e => simp [hc]
  | none =>
    cases hg : MNIST.getitem m.ds i with
    | none =>
      simp only [hg, true_and]
      unfold MNIST.getitem at hg
      rw [Option.map_eq_none'] at hg
      simp [List.get?_eq_none.mp hg]
    | some p =>
      simp only [hg]
      unfold MNIST.getitem at hg
      constructor
      · intro h; exact absurd h (by simp)
      · rintro ⟨-, hlen⟩
        rw [List.get?_eq_none.mpr hlen] at hg
        exact absurd hg (by simp)

/-- C3 witness for the amended claim: on the fresh state `mDemo` (two
underlying samples), reading index 5 fails, and the failure condition of
the amended claim holds there. -/
theorem CachedMNIST.getitem_error_iff_witness :
    mDemo.getitem 5 = none ∧ mDemo.cache.lookup 5 = none ∧ mDemo.ds.length ≤ 5 :=
  ⟨(CachedMNIST.getitem_error_iff mDemo 5).mpr ⟨by decide, by decide⟩,
    by decide, by decide⟩

/-- C4: every output pixel of `_transformation` is the raw byte value
multiplied by the constant `0.02` (modelled exactly as the rational
`2/100`); no mean or variance normalization is applied. -/
theorem CachedMNIST.transformation_scales (img : List ℕ) (i b : ℕ)
    (h : img.get? i = some b) :
    (CachedMNIST._transformation img).values.get? i = some ((b : ℚ) * (2 / 100)) := by
  unfold CachedMNIST._transformation
  rw [List.get?_map (fun b : ℕ => (b : ℚ) * (2 / 100)) img i, h]
  rfl

/-- C4 witness: the pixel with byte value 7 maps to `7 * 0.02`. -/
theorem CachedMNIST.transformation_scales_witness :
    ([7, 255] : List ℕ).get? 0 = some 7 ∧
    (CachedMNIST._transformation [7, 255]).values.get? 0 = some ((7 : ℚ) * (2 / 100)) :=
  ⟨by decide, CachedMNIST.transformation_scales [7, 255] 0 7 (by decide)⟩

/-- Looking up the key just inserted at the front of the cache. -/
theorem lookup_cons_self (c : List (ℕ × CacheEntry)) (i : ℕ) (e : CacheEntry) :
    ((i, e) :: c).lookup i = some e := by
  simp [List.lookup]

/-- Inserting a missing key at the front of the cache preserves every
existing binding. -/
theorem lookup_cons_preserved (c : List (ℕ × CacheEntry)) (i j : ℕ)
    (e e' : CacheEntry) (hc : c.lookup i = none) (hj : c.lookup j = some e') :
    ((i, e) :: c).lookup j = some e' := by
  rcases Decidable.em (j = i) with hji | hji
  · subst hji; rw [hc] at hj; exact absurd hj (by simp)
  · have hb : (j == i) = false := beq_eq_false_iff_ne.mpr hji
    simpa [List.lookup, hb] using hj

/-- C8: the device placement of a cached sample is decided exactly once,
when the cache entry is created, from the construction-time `cuda` flag:
with `cuda` on, slot 0 is the feature tensor moved to the accelerator
and slot 1 the label converted to a tensor on the accelerator; with
`cuda` off, slot 0 stays the CPU tensor produced by the transform and
slot 1 the raw label. No later call modifies an existing cache entry. -/
theorem CachedMNIST.getitem_device_once (m : CachedMNIST) (i : ℕ)
    (e : CacheEntry) (m' : CachedMNIST)
    (hmiss : m.cache.lookup i = none) (h : m.getitem i = some (e, m')) :
    (∃ p, MNIST.getitem m.ds i = some p ∧
      (m.cuda = true →
        e = [Value.tensor { values := p.1.values, device := Device.gpu },
             Value.tensor { values := [(p.2 : ℚ)], device := Device.gpu }]) ∧
      (m.cuda = false →
        e = [Value.tensor p.1, Value.int p.2] ∧ p.1.device = Device.cpu)) ∧
    (∀ j e', m.cache.lookup j = some e' → m'.cache.lookup j = some e') := by
  unfold CachedMNIST.getitem at h
  rw [hmiss] at h
  cases hg : MNIST.getitem m.ds i with
  | none => rw [hg] at h; simp at h
  | some p =>
    rw [hg] at h
    simp only [Option.some.injEq, Prod.mk.injEq] at h
    obtain ⟨he, hm⟩ := h
    subst he; subst hm
    refine ⟨⟨p, rfl, ?_, ?_⟩, ?_⟩
    · intro hcuda
      simp [CachedMNIST.fillEntry, hcuda, Tensor.cuda, tensorOf]
    · intro hcuda
      refine ⟨by simp [CachedMNIST.fillEntry, hcuda], ?_⟩
      unfold MNIST.getitem at hg
      rcases Option.map_eq_some'.mp hg with ⟨raw, -, hp⟩
      rw [← hp]
      rfl
    · intro j e' hj
      exact lookup_cons_preserved m.cache i j _ e' hmiss hj

/-- C8 witness state: a cuda-enabled wrapper over `dsDemo`. -/
def mCuda : CachedMNIST := CachedMNIST.mk0 dsDemo true false

/-- The entry `__getitem__(0)` creates on `mCuda`: both slots on the
accelerator. -/
def eCuda : CacheEntry :=
  [Value.tensor { values := [0, 1 / 50, 1 / 25], device := Device.gpu },
   Value.tensor { values := [5], device := Device.gpu }]

/-- The state of `mCuda` after the first read at index 0. -/
def mCuda' : CachedMNIST := { mCuda with cache := [(0, eCuda)] }

/-- Concrete evaluation of the first read at index 0 on `mCuda`. -/
theorem mCuda_getitem_eq : mCuda.getitem 0 = some (eCuda, mCuda') := by
  simp only [mCuda, mCuda', dsDemo, eCuda, CachedMNIST.mk0, CachedMNIST.getitem,
    MNIST.getitem, CachedMNIST.fillEntry, CachedMNIST._transformation, Tensor.cuda,
    tensorOf, List.lookup, List.get?, List.map, Option.map, List.set,
    if_true, Bool.true_eq_false]
  norm_num

/-- C8 witness: on `mCuda` (cuda flag set), the entry created at
cache-fill time has both tensors on the accelerator. -/
theorem CachedMNIST.getitem_device_once_witness :
    ∃ p, MNIST.getitem mCuda.ds 0 = some p ∧
      (mCuda.cuda = true →
        eCuda = [Value.tensor { values := p.1.values, device := Device.gpu },
                 Value.tensor { values := [(p.2 : ℚ)], device := Device.gpu }]) ∧
      (mCuda.cuda = false →
        eCuda = [Value.tensor p.1, Value.int p.2] ∧ p.1.device = Device.cpu) :=
  (CachedMNIST.getitem_device_once mCuda 0 eCuda mCuda' rfl mCuda_getitem_eq).1

/-- C9: `__getitem__` always returns the two-element list built from the
underlying `(image, label)` pair — never a feature-only value — and the
label's type depends on the `cuda` flag: raw integer when it is off, a
tensor moved to the accelerator when it is on. The well-formedness
invariant is preserved. -/
theorem CachedMNIST.getitem_entry_shape (m : CachedMNIST) (i : ℕ)
    (e : CacheEntry) (m' : CachedMNIST)
    (hwf : m.WF) (h : m.getitem i = some (e, m')) :
    (∃ p, MNIST.getitem m.ds i = some p ∧
      e.length = 2 ∧
      (m.cuda = false → e = [Value.tensor p.1, Value.int p.2]) ∧
      (m.cuda = true →
        e = [Value.tensor p.1.cuda, Value.tensor (tensorOf p.2).cuda] ∧
        ((tensorOf p.2).cuda).device = Device.gpu)) ∧
    m'.WF := by
  have hshape : ∀ p : Tensor × ℕ,
      (CachedMNIST.fillEntry m.cuda p).length = 2 ∧
      (m.cuda = false → CachedMNIST.fillEntry m.cuda p = [Value.tensor p.1, Value.int p.2]) ∧
      (m.cuda = true →
        CachedMNIST.fillEntry m.cuda p =
          [Value.tensor p.1.cuda, Value.tensor (tensorOf p.2).cuda] ∧
        ((tensorOf p.2).cuda).device = Device.gpu) := by
    intro p
    cases hcuda : m.cuda <;>
      simp [CachedMNIST.fillEntry, hcuda, Tensor.cuda, tensorOf]
  unfold CachedMNIST.getitem at h
  cases hc : m.cache.lookup i with
  | some e0 =>
    rw [hc] at h
    simp only [Option.some.injEq, Prod.mk.injEq] at h
    obtain ⟨he, hm⟩ := h
    obtain ⟨p, hp, hfill⟩ := hwf i e0 hc
    subst he; subst hm
    exact ⟨⟨p, hp, hfill ▸ hshape p⟩, hwf⟩
  | none =>
    rw [hc] at h
    cases hg : MNIST.getitem m.ds i with
    | none => rw [hg] at h; simp at h
    | some p =>
      rw [hg] at h
      simp only [Option.some.injEq, Prod.mk.injEq] at h
      obtain ⟨he, hm⟩ := h
      subst he; subst hm
      refine ⟨⟨p, rfl, hshape p⟩, ?_⟩
      intro j ej hj
      rcases Decidable.em (j = i) with hji | hji
      · subst hji
        rw [lookup_cons_self] at hj
        cases hj
        exact ⟨p, hg, rfl⟩
      · have hb : (j == i) = false := beq_eq_false_iff_ne.mpr hji
        simp only [List.lookup, hb] at hj
        exact hwf j ej hj

/-- The fresh state `mDemo` satisfies the cache invariant. -/
theorem mDemo_WF : mDemo.WF := by
  intro i e h
  simp [mDemo, CachedMNIST.mk0, List.lookup] at h

/-- Concrete evaluation of the first read at index 0 on `mDemo`. -/
theorem mDemo_getitem_eq : mDemo.getitem 0 = some (eDemo, mDemo') := by
  simp only [mDemo, mDemo', dsDemo, eDemo, CachedMNIST.mk0, CachedMNIST.getitem,
    MNIST.getitem, CachedMNIST.fillEntry, CachedMNIST._transformation, List.lookup,
    List.get?, List.map, Option.map, if_false, Bool.false_eq_true]
  norm_num

/-- C9 witness: on `mDemo` (cuda flag off), the read at index 0 returns
the two-element list with the raw integer label. -/
theorem CachedMNIST.getitem_entry_shape_witness :
    (∃ p, MNIST.getitem mDemo.ds 0 = some p ∧
      eDemo.length = 2 ∧
      (mDemo.cuda = false → eDemo = [Value.tensor p.1, Value.int p.2]) ∧
      (mDemo.cuda = true →
        eDemo = [Value.tensor p.1.cuda, Value.tensor (tensorOf p.2).cuda] ∧
        ((tensorOf p.2).cuda).device = Device.gpu)) ∧
    mDemo'.WF :=
  CachedMNIST.getitem_entry_shape mDemo 0 eDemo mDemo' mDemo_WF mDemo_getitem_eq

/-- C5: with the testing-mode flag set, `main` writes no confusion-matrix
PNG and logs no embedding entry; with it unset, a completed run writes
exactly one PNG, named with the random hex identifier, and logs exactly
one embedding entry. -/
theorem mainRun_outputs (cfg : Config) (w : World) :
    (cfg.testing_mode = true →
      (mainRun cfg w).1.filter Event.isSavePng = [] ∧
      (mainRun cfg w).1.filter Event.isLogEmbedding = []) ∧
    (cfg.testing_mode = false → (mainRun cfg w).2 = none →
      (mainRun cfg w).1.filter Event.isSavePng = [Event.savePng w.pngId] ∧
      (mainRun cfg w).1.filter Event.isLogEmbedding = [Event.logEmbedding]) := by
  obtain ⟨pe, te, ee, ke, pid⟩ := w
  cases pe <;> cases te <;> cases ee <;> cases ke <;>
    cases htm : cfg.testing_mode <;>
      simp [mainRun, preEvent, finEvent, Event.isSavePng, Event.isLogEmbedding, htm]

/-- C5 witness: a full run in testing mode produces neither output; a
full run with testing mode off produces exactly one of each. -/
theorem mainRun_outputs_witness :
    ((mainRun { Config.default with testing_mode := true } (World.ok "0f1e")).1.filter
        Event.isSavePng = [] ∧
      (mainRun { Config.default with testing_mode := true } (World.ok "0f1e")).1.filter
        Event.isLogEmbedding = []) ∧
    ((mainRun Config.default (World.ok "0f1e")).1.filter Event.isSavePng =
        [Event.savePng (World.ok "0f1e").pngId] ∧
      (mainRun Config.default (World.ok "0f1e")).1.filter Event.isLogEmbedding =
        [Event.logEmbedding]) :=
  ⟨(mainRun_outputs { Config.default with testing_mode := true } (World.ok "0f1e")).1 rfl,
    (mainRun_outputs Config.default (World.ok "0f1e")).2 rfl rfl⟩

/-- C6: `main` performs its three stages in the fixed order pretrain,
finetune, cluster-and-evaluate, with no branching or retries: a
completed run's trace is exactly the linear sequence, and an exception
from any external call terminates the run at that point with the error
propagated unchanged and no later stage executed. -/
theorem mainRun_linear (cfg : Config) (w : World) :
    ((mainRun cfg w).2 = none →
      (mainRun cfg w).1 =
        preEvent cfg :: finEvent cfg :: Event.dataLoader DSKind.train 1024 false ::
          Event.kmeansFit 10 20 ::
          (if cfg.testing_mode then [] else [Event.savePng w.pngId, Event.logEmbedding])) ∧
    (∀ err, w.pretrainErr = some err →
      mainRun cfg w = ([preEvent cfg], some err)) ∧
    (∀ err, w.pretrainErr = none → w.trainErr = some err →
      mainRun cfg w = ([preEvent cfg, finEvent cfg], some err)) ∧
    (∀ err, w.pretrainErr = none → w.trainErr = none → w.encodeErr = some err →
      mainRun cfg w =
        ([preEvent cfg, finEvent cfg, Event.dataLoader DSKind.train 1024 false], some err)) ∧
    (∀ err, w.pretrainErr = none → w.trainErr = none → w.encodeErr = none →
      w.kmeansErr = some err →
      mainRun cfg w =
        ([preEvent cfg, finEvent cfg, Event.dataLoader DSKind.train 1024 false], some err)) := by
  obtain ⟨pe, te, ee, ke, pid⟩ := w
  cases pe <;> cases te <;> cases ee <;> cases ke <;>
    cases htm : cfg.testing_mode <;> simp [mainRun, htm]

/-- C6 witness: the full success trace at the default configuration, and
the truncated trace when pretraining raises. -/
theorem mainRun_linear_witness :
    ((mainRun Config.default (World.ok "0f1e")).1 =
      preEvent Config.default :: finEvent Config.default ::
        Event.dataLoader DSKind.train 1024 false :: Event.kmeansFit 10 20 ::
        (if Config.default.testing_mode then []
         else [Event.savePng (World.ok "0f1e").pngId, Event.logEmbedding])) ∧
    mainRun Config.default { World.ok "0f1e" with pretrainErr := some "oom" } =
      ([preEvent Config.default], some "oom") :=
  ⟨(mainRun_linear Config.default (World.ok "0f1e")).1 rfl,
    (mainRun_linear Config.default
      { World.ok "0f1e" with pretrainErr := some "oom" }).2.1 "oom" rfl⟩

/-- C7: the cluster-and-evaluate stage of a completed run iterates over
the training set through a loader with batch size 1024 and shuffling
disabled, and fits k-means with 10 clusters and 20 restarts; batching at
size 1024 keeps the dataset in order (concatenating the batches gives
the dataset back), every batch except the last has exactly 1024
samples, and encoding the batches and concatenating the results equals
encoding the dataset in order. -/
theorem mainRun_cluster (cfg : Config) (w : World)
    (h : (mainRun cfg w).2 = none) :
    Event.dataLoader DSKind.train 1024 false ∈ (mainRun cfg w).1 ∧
    Event.kmeansFit 10 20 ∈ (mainRun cfg w).1 ∧
    (∀ (ds : List CacheEntry), (loaderBatches 1024 ds).flatten = ds ∧
      ∀ b ∈ (loaderBatches 1024 ds).dropLast, b.length = 1024) ∧
    (∀ (enc : CacheEntry → Tensor) (ds : List CacheEntry),
      ((loaderBatches 1024 ds).map (List.map enc)).flatten = ds.map enc) := by
  refine ⟨?_, ?_, ?_, ?_⟩
  · obtain ⟨pe, te, ee, ke, pid⟩ := w
    cases pe <;> cases te <;> cases ee <;> cases ke <;>
      cases htm : cfg.testing_mode <;> simp_all [mainRun, htm]
  · obtain ⟨pe, te, ee, ke, pid⟩ := w
    cases pe <;> cases te <;> cases ee <;> cases ke <;>
      cases htm : cfg.testing_mode <;> simp_all [mainRun, htm]
  · intro ds
    exact ⟨loaderBatches_flatten 1024 (by omega) ds,
      loaderBatches_dropLast_length 1024 ds⟩
  · intro enc ds
    rw [← List.map_flatten, loaderBatches_flatten 1024 (by omega) ds]

/-- C7 witness: both cluster-stage calls appear in the trace of a
completed default run. -/
theorem mainRun_cluster_witness :
    Event.dataLoader DSKind.train 1024 false ∈
      (mainRun Config.default (World.ok "0f1e")).1 ∧
    Event.kmeansFit 10 20 ∈ (mainRun Config.default (World.ok "0f1e")).1 :=
  ⟨(mainRun_cluster Config.default (World.ok "0f1e") rfl).1,
    (mainRun_cluster Config.default (World.ok "0f1e") rfl).2.1⟩

/-- C10: the cluster-and-evaluate stage always uses the constant batch
size 1024 with shuffling disabled, whatever the batch-size option is;
changing the batch-size option changes nothing in the run except the
`batch_size` argument of the pretraining and finetuning calls, which do
receive it. -/
theorem mainRun_batch_option (cfg : Config) (w : World) (b : ℕ) :
    (∀ d k s, Event.dataLoader d k s ∈ (mainRun cfg w).1 → k = 1024 ∧ s = false) ∧
    ((mainRun { cfg with batch_size := b } w).1.map Event.batchErased =
      (mainRun cfg w).1.map Event.batchErased) ∧
    ((mainRun { cfg with batch_size := b } w).2 = (mainRun cfg w).2) ∧
    preEvent cfg ∈ (mainRun cfg w).1 ∧
    (w.pretrainErr = none → finEvent cfg ∈ (mainRun cfg w).1) := by
  obtain ⟨pe, te, ee, ke, pid⟩ := w
  refine ⟨?_, ?_, ?_, ?_, ?_⟩ <;>
    cases pe <;> cases te <;> cases ee <;> cases ke <;>
      cases htm : cfg.testing_mode <;>
        simp_all [mainRun, preEvent, finEvent, Event.batchErased, htm]

/-- C10 witness: with the batch-size option changed to 7, the run differs
only in the batch-size argument of the pretrain/finetune calls, and the
pretraining call receives the configured batch size. -/
theorem mainRun_batch_option_witness :
    ((mainRun { Config.default with batch_size := 7 } (World.ok "0f1e")).1.map
        Event.batchErased =
      (mainRun Config.default (World.ok "0f1e")).1.map Event.batchErased) ∧
    preEvent Config.default ∈ (mainRun Config.default (World.ok "0f1e")).1 :=
  ⟨(mainRun_batch_option Config.default (World.ok "0f1e") 7).2.1,
    (mainRun_batch_option Config.default (World.ok "0f1e") 7).2.2.2.1⟩
